import Mathlib

/-!
Verification of the raycast2api protocol-translation service.

This file gives a shallow embedding, in Lean, of the core functions of the
repository `missuo/raycast2api`:

  * `service/utls.go`   — `convertMessages`, `parseSSEResponse`,
    `handleStreamingResponse`, `handleNonStreamingResponse`
  * `service/models.go` — `GetModels`, `getProviderInfo`
  * `service/config.go` — the configuration constants
  * the request-default logic of `handleChatCompletions` (single-file version)

Modelling conventions:

  * Go strings and byte slices are modelled as `List Char` when they are
    processed character-by-character (ASCII payloads), and as `String` when
    they are only carried or concatenated.
  * `json.Unmarshal` into `RaycastSSEData` is Go standard-library code, not
    code of this repository; it is modelled as an abstract parameter
    `decode : List Char → Option RaycastSSEData` (`none` = parse error).
  * Wall-clock time is an abstract `Nat` tick count; the effectful upstream
    fetch of `GetModels` is passed in as an `Except String` value.
  * Effect-only fields of outbound objects (fresh UUIDs, timestamps) are
    omitted; all data-carrying fields are kept.
-/

namespace Raycast

/-! ## Go string primitives used by the source (strings / bufio packages) -/

/-- `unicode.IsSpace` restricted to the code points Go treats as space in
`strings.TrimSpace` (Latin-1 range). -/
def goIsSpace (c : Char) : Bool :=
  c = ' ' || c = '\t' || c = '\n' || c = '\x0b' || c = '\x0c' || c = '\r' ||
  c = '\u0085' || c = '\u00A0'

/-- `strings.TrimSpace`: drop leading and trailing space characters. -/
def trimSpace (l : List Char) : List Char :=
  ((l.dropWhile goIsSpace).reverse.dropWhile goIsSpace).reverse

/-- `strings.HasPrefix(l, "data:")`. -/
def hasDataColon (l : List Char) : Bool :=
  ("data:".data).isPrefixOf l

/-- `strings.HasSuffix(buffer, "\n\n")`. -/
def hasSuffixNN (buffer : List Char) : Bool :=
  ['\n', '\n'].isSuffixOf buffer

/-- `strings.Split(s, "\n")`: all fields, empty fields included.
The accumulator holds the current field. -/
def splitNLAux : List Char → List Char → List (List Char)
  | [], acc => [acc]
  | c :: cs, acc =>
      if c = '\n' then acc :: splitNLAux cs []
      else splitNLAux cs (acc ++ [c])

/-- `strings.Split(s, "\n")`. -/
def splitNL (s : List Char) : List (List Char) :=
  splitNLAux s []

/-- One pass of `bufio.Reader.ReadString('\n')` repeated to exhaustion:
returns the list of complete lines (each still ending in `'\n'`) and the
pending partial line that never saw its terminator. -/
def linesState : List Char → List Char → List (List Char) × List Char
  | [], acc => ([], acc)
  | c :: cs, acc =>
      if c = '\n' then
        ((acc ++ [c]) :: (linesState cs []).1, (linesState cs []).2)
      else linesState cs (acc ++ [c])

/-- The complete `'\n'`-terminated lines of a byte stream, in order.  The
source loop `line, err := reader.ReadString('\n'); if err != nil break`
reads exactly these lines and discards the pending partial line when the
read returns an error (end of input or otherwise). -/
def toLines (s : List Char) : List (List Char) :=
  (linesState s []).1

/-- `bufio.Scanner` with `ScanLines`: split on `'\n'`, dropping the
terminator and one trailing `'\r'`; a final unterminated token is returned,
but a trailing empty remainder is not. -/
def dropCR (l : List Char) : List Char :=
  match l.getLast? with
  | some '\r' => l.dropLast
  | _ => l

/-- Token accumulator for `scanLines`. -/
def scanLinesAux : List Char → List Char → List (List Char)
  | [], acc => if acc = [] then [] else [dropCR acc]
  | c :: cs, acc =>
      if c = '\n' then dropCR acc :: scanLinesAux cs []
      else scanLinesAux cs (acc ++ [c])

/-- `bufio.Scanner` line tokens of a string. -/
def scanLines (s : List Char) : List (List Char) :=
  scanLinesAux s []

/-! ## Data model (`service/types.go`, `service/config.go`) -/

/-- `RaycastSSEData`: one decoded upstream SSE frame. -/
structure RaycastSSEData where
  text : String
  finishReason : String
deriving DecidableEq, Repr

/-- A JSON element of an array-valued `content` field.  `part` carries the
part's `"type"` field (when it is a string) and its `"text"` field (when it
is a string); `notObject` is an element that is not a JSON object, which the
source skips. -/
inductive ContentPart where
  | part (ptype : String) (text : Option String)
  | notObject
deriving DecidableEq, Repr

/-- The dynamic `content` field of an inbound message: a plain string, an
array of typed parts, or any other JSON value (which the source ignores). -/
inductive MsgContent where
  | str (s : String)
  | arr (parts : List ContentPart)
  | other
deriving DecidableEq, Repr

/-- `OpenAIMessage`. -/
structure OpenAIMessage where
  role : String
  content : MsgContent
deriving DecidableEq, Repr

/-- `RaycastMessage` (the nested `Content.Text` is flattened to `text`). -/
structure RaycastMessage where
  author : String
  text : String
deriving DecidableEq, Repr

/-- `ConvertMessagesResult`. -/
structure ConvertMessagesResult where
  raycastMessages : List RaycastMessage
  systemInstruction : String
deriving DecidableEq, Repr

/-- `DefaultProvider` (`service/config.go`). -/
def DefaultProvider : String := "anthropic"

/-- `DefaultModel` (`service/config.go`). -/
def DefaultModel : String := "claude-3-7-sonnet-latest"

/-- `ModelCacheTTL` (`service/config.go`), in seconds: 6 hours. -/
def ModelCacheTTL : Nat := 21600

/-- `ModelCacheEntry`. -/
structure ModelCacheEntry where
  model : String
  provider : String
deriving DecidableEq, Repr

/-- `ModelCache` state: the Go map is modelled as an association list keyed
by model id; the mutex guards concurrency only and carries no data. -/
structure ModelCache where
  models : List (String × ModelCacheEntry)
  expiresAt : Nat
deriving DecidableEq, Repr

/-! ## Message converter (`service/utls.go`, `convertMessages`) -/

/-- The inner flattening loop over an array-valued `content`: concatenate
the `text` of every part whose `type` is `"text"`. -/
def flattenParts (parts : List ContentPart) : String :=
  parts.foldl
    (fun acc p =>
      match p with
      | ContentPart.part t txt =>
          if t = "text" then
            match txt with
            | some s => acc ++ s
            | none => acc
          else acc
      | ContentPart.notObject => acc)
    ""

/-- The content text a user/assistant message contributes. -/
def contentTextOf : MsgContent → String
  | MsgContent.str s => s
  | MsgContent.arr ps => flattenParts ps
  | MsgContent.other => ""

/-- The body of the `for i, msg := range openaiMessages` loop of
`convertMessages`, with the loop index, the pending system instruction and
the accumulated messages made explicit. -/
def convertMessagesAux : Nat → List OpenAIMessage → String → List RaycastMessage →
    ConvertMessagesResult
  | _, [], sys, acc => ⟨acc, sys⟩
  | i, msg :: rest, sys, acc =>
      if msg.role = "system" ∧ i = 0 then
        match msg.content with
        | MsgContent.str s => convertMessagesAux (i + 1) rest s acc
        | MsgContent.arr ps =>
            if flattenParts ps ≠ "" then
              convertMessagesAux (i + 1) rest (flattenParts ps) acc
            else convertMessagesAux (i + 1) rest sys acc
        | MsgContent.other => convertMessagesAux (i + 1) rest sys acc
      else if msg.role = "user" ∨ msg.role = "assistant" then
        convertMessagesAux (i + 1) rest sys
          (acc ++ [⟨if msg.role = "assistant" then "assistant" else "user",
                    contentTextOf msg.content⟩])
      else convertMessagesAux (i + 1) rest sys acc

/-- `convertMessages`: system instruction defaults to `"markdown"`. -/
def convertMessages (openaiMessages : List OpenAIMessage) : ConvertMessagesResult :=
  convertMessagesAux 0 openaiMessages "markdown" []

/-- Characterisation of the non-system part of the conversion: the
user/assistant messages, each flattened, in order. -/
def userAssistantMessages (msgs : List OpenAIMessage) : List RaycastMessage :=
  (msgs.filter (fun m => m.role = "user" ∨ m.role = "assistant")).map
    (fun m => ⟨if m.role = "assistant" then "assistant" else "user",
               contentTextOf m.content⟩)

/-! ## Model cache (`service/models.go`) -/

/-- The synthesized single-entry default directory of `GetModels`. -/
def defaultModels : List (String × ModelCacheEntry) :=
  [(DefaultModel, { provider := DefaultProvider, model := DefaultModel })]

/-- `GetModels`, with time and the effectful fetch made explicit.  Returns
the directory handed to the caller, the error value returned to the caller
(`none` = Go `nil`), and the cache state after the call. -/
def GetModels (mc : ModelCache) (now : Nat)
    (fetchResult : Except String (List (String × ModelCacheEntry))) :
    List (String × ModelCacheEntry) × Option String × ModelCache :=
  if now < mc.expiresAt ∧ mc.models.length > 0 then
    (mc.models, none, mc)
  else
    match fetchResult with
    | Except.error e =>
        if mc.models.length > 0 then (mc.models, none, mc)
        else (defaultModels, some e, mc)
    | Except.ok models =>
        (models, none, { models := models, expiresAt := now + ModelCacheTTL })

/-- `getProviderInfo`. -/
def getProviderInfo (modelID : String)
    (models : List (String × ModelCacheEntry)) : String × String :=
  match models.lookup modelID with
  | some m => (m.provider, m.model)
  | none => (DefaultProvider, DefaultModel)

/-! ## Non-streaming assembler (`parseSSEResponse`, `handleNonStreamingResponse`) -/

/-- The scanner loop of `parseSSEResponse`: skip empty lines, take lines
with the `data:` marker, trim the payload, decode it, and append non-empty
`text` fields to the accumulated full text.  A decode failure is logged and
skipped. -/
def parseSSELines (decode : List Char → Option RaycastSSEData) :
    List (List Char) → String → String
  | [], fullText => fullText
  | line :: rest, fullText =>
      if line = [] then parseSSELines decode rest fullText
      else if hasDataColon line then
        match decode (trimSpace (line.drop 5)) with
        | none => parseSSELines decode rest fullText
        | some jsonData =>
            if jsonData.text ≠ "" then
              parseSSELines decode rest (fullText ++ jsonData.text)
            else parseSSELines decode rest fullText
      else parseSSELines decode rest fullText

/-- `parseSSEResponse`. -/
def parseSSEResponse (decode : List Char → Option RaycastSSEData)
    (responseText : List Char) : String :=
  parseSSELines decode (scanLines responseText) ""

/-- The fixed synthetic usage block of `handleNonStreamingResponse`,
flattened: prompt/completion/total token counts and the four detail
counters. -/
structure UsageBlock where
  promptTokens : Nat
  completionTokens : Nat
  totalTokens : Nat
  cachedTokens : Nat
  promptAudioTokens : Nat
  reasoningTokens : Nat
  completionAudioTokens : Nat
  acceptedPredictionTokens : Nat
  rejectedPredictionTokens : Nat
deriving DecidableEq, Repr

/-- The hard-coded usage values of `handleNonStreamingResponse`. -/
def syntheticUsage : UsageBlock :=
  { promptTokens := 10, completionTokens := 10, totalTokens := 20,
    cachedTokens := 0, promptAudioTokens := 0, reasoningTokens := 0,
    completionAudioTokens := 0, acceptedPredictionTokens := 0,
    rejectedPredictionTokens := 0 }

/-- The data-carrying fields of the `OpenAIChatResponse` built by
`handleNonStreamingResponse` (the fresh UUID id and the timestamp are
effects and omitted). -/
structure OpenAIChatResponseModel where
  object : String
  model : String
  role : String
  content : String
  finishReason : String
  usage : UsageBlock
  serviceTier : String
  systemFingerprint : String
deriving DecidableEq, Repr

/-- `handleNonStreamingResponse`: read the whole body, extract the full
text with `parseSSEResponse`, and wrap it in an OpenAI-format response with
fixed usage numbers and finish reason `"length"`. -/
def handleNonStreamingResponse (decode : List Char → Option RaycastSSEData)
    (bodyBytes : List Char) (modelId : String) : OpenAIChatResponseModel :=
  { object := "chat.completion",
    model := modelId,
    role := "assistant",
    content := parseSSEResponse decode bodyBytes,
    finishReason := "length",
    usage := syntheticUsage,
    serviceTier := "default",
    systemFingerprint := "fp_b376dfbbd5" }

/-! ## Streaming transcoder (`handleStreamingResponse`) -/

/-- The data-carrying fields of one outbound streaming chunk (id, created
and model are per-chunk effects/parameters and omitted). -/
structure OutChunk where
  content : String
  finishReason : String
deriving DecidableEq, Repr

/-- One outbound event of the streaming path: a delta chunk or the final
`data: [DONE]` marker. -/
inductive StreamEvent where
  | chunk (c : OutChunk)
  | done
deriving DecidableEq, Repr

/-- How the upstream read loop ends: clean end of input, or a read error
(the source logs the error; both cases break out of the loop). -/
inductive EndKind where
  | eof
  | ioError
deriving DecidableEq, Repr

/-- The per-line body of the block-processing loop: skip lines that trim to
empty, decode the trimmed payload of `data:` lines, and emit one chunk per
successful decode (a decode failure is logged and skipped). -/
def processLine (decode : List Char → Option RaycastSSEData)
    (l : List Char) : Option StreamEvent :=
  if trimSpace l = [] then none
  else if hasDataColon l then
    match decode (trimSpace (l.drop 5)) with
    | none => none
    | some jsonData => some (StreamEvent.chunk ⟨jsonData.text, jsonData.finishReason⟩)
  else none

/-- Processing of one complete blank-line-terminated block: split the
buffer on `'\n'` and handle every line. -/
def processBlock (decode : List Char → Option RaycastSSEData)
    (buffer : List Char) : List StreamEvent :=
  (splitNL buffer).filterMap (processLine decode)

/-- The `for` loop of `handleStreamingResponse`, driven by the complete
lines the reader delivers: append each line to the buffer; when the buffer
ends in `"\n\n"`, process it as one block and reset it.  When the read
returns an error the loop breaks, for end of input and read errors alike,
discarding the pending partial line and the unprocessed buffer. -/
def streamLoop (decode : List Char → Option RaycastSSEData) :
    List (List Char) → List Char → EndKind → List StreamEvent
  | [], _, EndKind.eof => []
  | [], _, EndKind.ioError => []
  | line :: rest, buffer, ek =>
      if hasSuffixNN (buffer ++ line) then
        processBlock decode (buffer ++ line) ++ streamLoop decode rest [] ek
      else streamLoop decode rest (buffer ++ line) ek

/-- `handleStreamingResponse`: the event sequence written to the caller for
an upstream body whose delivered bytes are `body` and whose read loop ends
with `ek`; a final `data: [DONE]` frame always follows the loop. -/
def handleStreamingResponse (decode : List Char → Option RaycastSSEData)
    (body : List Char) (ek : EndKind) : List StreamEvent :=
  streamLoop decode (toLines body) [] ek ++ [StreamEvent.done]

/-! ## Request defaults (`handleChatCompletions`, single-file version) -/

/-- The decoded `OpenAIChatRequest` body.  Per Go `encoding/json`, a field
absent from the request JSON decodes to its zero value: `""` for `model`,
`0` for `temperature`, `false` for `stream`.  `temperature` (Go `float64`)
is modelled as `ℚ`; the only comparison performed on it is against `0`,
where the two agree. -/
structure OpenAIChatRequest where
  messages : List OpenAIMessage
  model : String
  temperature : ℚ
  stream : Bool
deriving DecidableEq, Repr

/-- The default-application block of `handleChatCompletions`: substitute
the default model for an empty model id, temperature `0.5` for a zero
temperature, and pass `stream` through. -/
def applyRequestDefaults (body : OpenAIChatRequest) : String × ℚ × Bool :=
  (if body.model = "" then DefaultModel else body.model,
   if body.temperature = 0 then 0.5 else body.temperature,
   body.stream)

/-! ## Decode-free characterisations used by the theorems -/

/-- The trimmed `data:` payload of one streaming-block line, when the line
survives the skip tests. -/
def lineData (l : List Char) : Option (List Char) :=
  if trimSpace l = [] then none
  else if hasDataColon l then some (trimSpace (l.drop 5))
  else none

/-- The `data:` payloads of one complete block. -/
def blockDatas (buffer : List Char) : List (List Char) :=
  (splitNL buffer).filterMap lineData

/-- The `data:` payloads the streaming loop actually submits to the JSON
decoder, in order. -/
def streamDatas : List (List Char) → List Char → List (List Char)
  | [], _ => []
  | line :: rest, buffer =>
      if hasSuffixNN (buffer ++ line) then
        blockDatas (buffer ++ line) ++ streamDatas rest []
      else streamDatas rest (buffer ++ line)

/-- The buffer left over after the streaming loop consumes a line list. -/
def bufAfter : List (List Char) → List Char → List Char
  | [], buffer => buffer
  | line :: rest, buffer =>
      if hasSuffixNN (buffer ++ line) then bufAfter rest []
      else bufAfter rest (buffer ++ line)

/-- The event a successfully decoded payload turns into. -/
def decodeEvent (decode : List Char → Option RaycastSSEData)
    (d : List Char) : Option StreamEvent :=
  (decode d).map (fun j => StreamEvent.chunk ⟨j.text, j.finishReason⟩)

/-- The trimmed `data:` payload of one scanner line of the non-streaming
parser (which skips exactly-empty lines, without trimming first). -/
def scanLineData (l : List Char) : Option (List Char) :=
  if l = [] then none
  else if hasDataColon l then some (trimSpace (l.drop 5))
  else none

/-- The `data:` payloads the non-streaming parser submits to the JSON
decoder, in order. -/
def sseDatas (responseText : List Char) : List (List Char) :=
  (scanLines responseText).filterMap scanLineData

/-- Concatenation of a list of strings in order. -/
def textConcat : List String → String
  | [] => ""
  | s :: rest => s ++ textConcat rest

/-! ## Factorisation lemmas: the transcoders split into a decode-free
payload extraction followed by a pointwise decode -/

theorem processLine_eq (decode : List Char → Option RaycastSSEData) (l : List Char) :
    processLine decode l = (lineData l).bind (decodeEvent decode) := by
  unfold processLine lineData decodeEvent
  split_ifs
  · rfl
  · cases hd : decode (trimSpace (l.drop 5)) <;> simp [hd]
  · rfl

theorem processBlock_eq (decode : List Char → Option RaycastSSEData) (buffer : List Char) :
    processBlock decode buffer = (blockDatas buffer).filterMap (decodeEvent decode) := by
  unfold processBlock blockDatas
  rw [List.filterMap_filterMap]
  congr 1
  funext l
  exact processLine_eq decode l

theorem streamLoop_eq (decode : List Char → Option RaycastSSEData) :
    ∀ (ls : List (List Char)) (buffer : List Char) (ek : EndKind),
    streamLoop decode ls buffer ek = (streamDatas ls buffer).filterMap (decodeEvent decode)
  | [], _, EndKind.eof => rfl
  | [], _, EndKind.ioError => rfl
  | line :: rest, buffer, ek => by
      simp only [streamLoop, streamDatas]
      split_ifs
      · rw [List.filterMap_append, processBlock_eq, streamLoop_eq decode rest [] ek]
      · exact streamLoop_eq decode rest (buffer ++ line) ek

theorem linesState_append : ∀ (a b acc : List Char),
    linesState (a ++ b) acc =
      ((linesState a acc).1 ++ (linesState b (linesState a acc).2).1,
       (linesState b (linesState a acc).2).2)
  | [], b, acc => by simp [linesState]
  | c :: cs, b, acc => by
      simp only [List.cons_append, linesState, List.append_eq]
      split_ifs
      · rw [linesState_append cs b []]
        simp
      · exact linesState_append cs b (acc ++ [c])

theorem linesState_flatten : ∀ (s acc : List Char),
    (linesState s acc).1.flatten ++ (linesState s acc).2 = acc ++ s
  | [], acc => by simp [linesState]
  | c :: cs, acc => by
      simp only [linesState]
      split_ifs with h
      · subst h
        simp only [List.flatten_cons, List.append_assoc, linesState_flatten cs []]
        simp
      · have ih := linesState_flatten cs (acc ++ [c])
        simpa [List.append_assoc] using ih

theorem streamDatas_append : ∀ (l₁ l₂ : List (List Char)) (buffer : List Char),
    streamDatas (l₁ ++ l₂) buffer =
      streamDatas l₁ buffer ++ streamDatas l₂ (bufAfter l₁ buffer)
  | [], l₂, buffer => by simp [streamDatas, bufAfter]
  | l :: rest, l₂, buffer => by
      simp only [List.cons_append, streamDatas, bufAfter, List.append_eq]
      split_ifs
      · rw [streamDatas_append rest l₂ [], List.append_assoc]
      · exact streamDatas_append rest l₂ (buffer ++ l)

theorem hasSuffixNN_suffix {b : List Char} (h : hasSuffixNN b = true) :
    ['\n', '\n'] <:+ b := by
  simpa [hasSuffixNN] using h

theorem streamDatas_nil_of_no_nn : ∀ (ls : List (List Char)) (buffer : List Char),
    ¬ (['\n', '\n'] <:+: buffer ++ ls.flatten) → streamDatas ls buffer = []
  | [], _, _ => rfl
  | l :: rest, buffer, h => by
      simp only [streamDatas]
      split_ifs with hb
      · refine absurd ?_ h
        have h1 : ['\n', '\n'] <:+: buffer ++ l := (hasSuffixNN_suffix hb).isInfix
        have h2 : (buffer ++ l) <:+: buffer ++ (l :: rest).flatten := by
          rw [List.flatten_cons, ← List.append_assoc]
          exact (List.prefix_append _ _).isInfix
        exact h1.trans h2
      · refine streamDatas_nil_of_no_nn rest (buffer ++ l) ?_
        intro hc
        refine h ?_
        simpa [List.flatten_cons, List.append_assoc] using hc

theorem parseSSELines_eq (decode : List Char → Option RaycastSSEData) :
    ∀ (L : List (List Char)) (acc : String),
    parseSSELines decode L acc =
      acc ++ textConcat (((L.filterMap scanLineData).filterMap decode).map RaycastSSEData.text)
  | [], acc => by simp [parseSSELines, textConcat]
  | line :: rest, acc => by
      simp only [parseSSELines]
      split_ifs with h1 h2
      · have hs : scanLineData line = none := by simp [scanLineData, h1]
        rw [List.filterMap_cons, hs, parseSSELines_eq decode rest acc]
      · have hs : scanLineData line = some (trimSpace (line.drop 5)) := by
          simp [scanLineData, h1, h2]
        rw [List.filterMap_cons, hs, List.filterMap_cons]
        cases hd : decode (trimSpace (line.drop 5)) with
        | none => rw [parseSSELines_eq decode rest acc]
        | some j =>
            by_cases ht : j.text = ""
            · simp [ht, parseSSELines_eq decode rest, textConcat]
            · simp [ht, parseSSELines_eq decode rest, textConcat, String.append_assoc]
      · have hs : scanLineData line = none := by simp [scanLineData, h1, h2]
        rw [List.filterMap_cons, hs, parseSSELines_eq decode rest acc]

theorem parseSSEResponse_eq (decode : List Char → Option RaycastSSEData)
    (responseText : List Char) :
    parseSSEResponse decode responseText =
      textConcat (((sseDatas responseText).filterMap decode).map RaycastSSEData.text) := by
  rw [parseSSEResponse, parseSSELines_eq, sseDatas]
  exact String.empty_append _

theorem textConcat_append : ∀ (a b : List String),
    textConcat (a ++ b) = textConcat a ++ textConcat b
  | [], b => (String.empty_append _).symm
  | s :: rest, b => by
      simp only [List.cons_append, textConcat, List.append_eq,
        textConcat_append rest b, String.append_assoc]

/-! ## The tail of the conversion loop never touches the system instruction -/

theorem convertMessagesAux_succ : ∀ (msgs : List OpenAIMessage) (i : Nat) (sys : String)
    (acc : List RaycastMessage),
    convertMessagesAux (i + 1) msgs sys acc = ⟨acc ++ userAssistantMessages msgs, sys⟩
  | [], _, sys, acc => by simp [convertMessagesAux, userAssistantMessages]
  | msg :: rest, i, sys, acc => by
      simp only [convertMessagesAux]
      rw [if_neg (by simp : ¬ (msg.role = "system" ∧ i + 1 = 0))]
      by_cases hu : msg.role = "user" ∨ msg.role = "assistant"
      · rw [if_pos hu, convertMessagesAux_succ rest (i + 1) sys _]
        simp [userAssistantMessages, hu, List.filter_cons]
      · rw [if_neg hu, convertMessagesAux_succ rest (i + 1) sys acc]
        simp [userAssistantMessages, List.filter_cons, hu]

/-! ## Concrete example streams of the spec and a concrete decoder for them -/

/-- The spec's two-frame example upstream stream. -/
def twoFrameStream : String :=
  "data: \x7b\"text\":\"Hel\"\x7d\n\ndata: \x7b\"text\":\"lo\"\x7d\n\n"

/-- The first example frame's JSON payload. -/
def helPayload : String := "\x7b\"text\":\"Hel\"\x7d"

/-- The second example frame's JSON payload. -/
def loPayload : String := "\x7b\"text\":\"lo\"\x7d"

/-- The two-frame stream with a malformed `data:` line between the frames. -/
def malformedStream : String :=
  "data: \x7b\"text\":\"Hel\"\x7d\n\ndata: notjson\n\ndata: \x7b\"text\":\"lo\"\x7d\n\n"

/-- A concrete stand-in for `json.Unmarshal` at the example payloads, used
to instantiate the decode-parameterised theorems. -/
def decodeTest (d : List Char) : Option RaycastSSEData :=
  if d = helPayload.data then some ⟨"Hel", ""⟩
  else if d = loPayload.data then some ⟨"lo", ""⟩
  else none

/-! ## The claims -/

/-- Claim C1: on the upstream stream made of the blank-line-terminated frames
`data: {"text":"Hel"}` and `data: {"text":"lo"}` followed by end of input,
the streaming transcoder emits exactly two chunks with delta content "Hel"
then "lo", followed by exactly one `data: [DONE]` frame; trailing bytes after
the last complete blank-line-terminated block are never parsed and change
nothing. -/
theorem claim_C1_streaming_two_frames (decode : List Char → Option RaycastSSEData)
    (h1 : decode helPayload.data = some ⟨"Hel", ""⟩)
    (h2 : decode loPayload.data = some ⟨"lo", ""⟩)
    (t : List Char) (ht : ¬ (['\n', '\n'] <:+: t)) :
    handleStreamingResponse decode (twoFrameStream.data ++ t) EndKind.eof =
      [StreamEvent.chunk ⟨"Hel", ""⟩, StreamEvent.chunk ⟨"lo", ""⟩,
       StreamEvent.done] := by
  have hlines : toLines (twoFrameStream.data ++ t) =
      toLines twoFrameStream.data ++ toLines t := by
    unfold toLines
    rw [linesState_append]
    rw [show (linesState twoFrameStream.data []).2 = [] from by decide]
  have htail : streamDatas (toLines t) [] = [] := by
    apply streamDatas_nil_of_no_nn
    intro hc
    have hp : (toLines t).flatten <+: t := by
      refine ⟨(linesState t []).2, ?_⟩
      simpa using linesState_flatten t []
    have hc' : ['\n', '\n'] <:+: (toLines t).flatten := by simpa using hc
    exact ht (hc'.trans hp.isInfix)
  rw [handleStreamingResponse, streamLoop_eq, hlines, streamDatas_append]
  rw [show streamDatas (toLines twoFrameStream.data) [] =
      [helPayload.data, loPayload.data] from by decide]
  rw [show bufAfter (toLines twoFrameStream.data) [] = [] from by decide]
  rw [htail]
  simp [decodeEvent, h1, h2]

/-- Witness for C1: the concrete decoder on the example stream followed by an
unterminated trailing fragment. -/
theorem claim_C1_witness :
    handleStreamingResponse decodeTest
        (twoFrameStream.data ++ "data: \x7b\"tex".data) EndKind.eof =
      [StreamEvent.chunk ⟨"Hel", ""⟩, StreamEvent.chunk ⟨"lo", ""⟩,
       StreamEvent.done] :=
  claim_C1_streaming_two_frames decodeTest (by decide) (by decide)
    ("data: \x7b\"tex".data) (by decide)

/-- Claim C2: a leading system message with plain string content S becomes
the system instruction and contributes no upstream message: the converted
sequence is exactly the one derived from the remaining messages. -/
theorem claim_C2_leading_system_string (S : String) (rest : List OpenAIMessage) :
    convertMessages (⟨"system", MsgContent.str S⟩ :: rest) =
      ⟨userAssistantMessages rest, S⟩ := by
  have h : convertMessages (⟨"system", MsgContent.str S⟩ :: rest) =
      convertMessagesAux 1 rest S [] := rfl
  rw [h]
  exact convertMessagesAux_succ rest 0 S []

/-- Claim C3: the non-streaming response's content is the concatenation of
every decoded frame's text in arrival order ("Hello" on the two-frame
example), the usage block is the fixed synthetic placeholder, and the finish
reason is the constant "length" whatever the upstream sent. -/
theorem claim_C3_nonstreaming_assembly (decode : List Char → Option RaycastSSEData)
    (body : List Char) (modelId : String)
    (h1 : decode helPayload.data = some ⟨"Hel", ""⟩)
    (h2 : decode loPayload.data = some ⟨"lo", ""⟩) :
    (handleNonStreamingResponse decode body modelId).content =
      textConcat (((sseDatas body).filterMap decode).map RaycastSSEData.text) ∧
    (handleNonStreamingResponse decode body modelId).usage = syntheticUsage ∧
    (handleNonStreamingResponse decode body modelId).finishReason = "length" ∧
    (handleNonStreamingResponse decode twoFrameStream.data modelId).content =
      "Hello" := by
  refine ⟨parseSSEResponse_eq decode body, rfl, rfl, ?_⟩
  show parseSSEResponse decode twoFrameStream.data = "Hello"
  rw [parseSSEResponse_eq]
  rw [show sseDatas twoFrameStream.data = [helPayload.data, loPayload.data]
      from by decide]
  simp [h1, h2, textConcat]

/-- Witness for C3: the concrete decoder on the two-frame example. -/
theorem claim_C3_witness :
    (handleNonStreamingResponse decodeTest twoFrameStream.data "m").content =
      "Hello" ∧
    (handleNonStreamingResponse decodeTest twoFrameStream.data "m").finishReason =
      "length" :=
  ⟨(claim_C3_nonstreaming_assembly decodeTest twoFrameStream.data "m"
      (by decide) (by decide)).2.2.2,
   (claim_C3_nonstreaming_assembly decodeTest twoFrameStream.data "m"
      (by decide) (by decide)).2.2.1⟩

/-- Counterexample to C4 as stated: with an expired non-empty directory and a
failing fetch, `GetModels` returns the previous directory but a `nil` error:
the fetch error is not surfaced to the caller (the source's fallback branch
is `return mc.models, nil`). -/
theorem claim_C4_counterexample :
    (GetModels ⟨[("gpt-4", ⟨"gpt-4", "openai"⟩)], 0⟩ 1 (Except.error "boom")).1 =
        [("gpt-4", ⟨"gpt-4", "openai"⟩)] ∧
    (GetModels ⟨[("gpt-4", ⟨"gpt-4", "openai"⟩)], 0⟩ 1 (Except.error "boom")).2.1 =
        none := by
  decide

/-- Claim C4 (amended): whenever the upstream fetch fails and a previous
non-empty directory exists (even expired), `GetModels` returns that directory
unchanged with a `nil` error — the fetch error is logged inside `GetModels`
but not returned to the caller, so the HTTP-facing request is not failed. -/
theorem claim_C4_amended_stale_fallback (mc : ModelCache) (now : Nat) (e : String)
    (h : 0 < mc.models.length) :
    GetModels mc now (Except.error e) = (mc.models, none, mc) := by
  simp only [GetModels]
  split_ifs with hc
  · rfl
  · simp [h]

/-- Witness for the amended C4 at a concrete expired cache. -/
theorem claim_C4_witness :
    GetModels ⟨[("gpt-4", ⟨"gpt-4", "openai"⟩)], 0⟩ 1 (Except.error "boom") =
      ([("gpt-4", ⟨"gpt-4", "openai"⟩)], none,
       ⟨[("gpt-4", ⟨"gpt-4", "openai"⟩)], 0⟩) :=
  claim_C4_amended_stale_fallback ⟨[("gpt-4", ⟨"gpt-4", "openai"⟩)], 0⟩ 1 "boom"
    (by decide)

/-- Claim C5: for every model id absent from the directory `getProviderInfo`
returns the hard-coded default provider/model pair, never an error; for every
present id it returns that entry's provider and model. -/
theorem claim_C5_getProviderInfo (modelID : String)
    (models : List (String × ModelCacheEntry)) :
    (models.lookup modelID = none →
      getProviderInfo modelID models = (DefaultProvider, DefaultModel)) ∧
    (∀ e, models.lookup modelID = some e →
      getProviderInfo modelID models = (e.provider, e.model)) := by
  constructor
  · intro h
    simp [getProviderInfo, h]
  · intro e h
    simp [getProviderInfo, h]

/-- Witness for C5: an absent id falls back to the default pair; a present id
returns its entry. -/
theorem claim_C5_witness :
    getProviderInfo "nope" [] = (DefaultProvider, DefaultModel) ∧
    getProviderInfo "gpt-4" [("gpt-4", ⟨"gpt-4", "openai"⟩)] =
      ("openai", "gpt-4") :=
  ⟨(claim_C5_getProviderInfo "nope" []).1 (by decide),
   (claim_C5_getProviderInfo "gpt-4" [("gpt-4", ⟨"gpt-4", "openai"⟩)]).2
     ⟨"gpt-4", "openai"⟩ (by decide)⟩

/-- Claim C6: for every upstream stream in which a `data:` line whose
payload is invalid JSON occurs between two valid frames, both transcoders
skip the malformed line without aborting.  The payload sequence a stream
submits to the JSON decoder is `streamDatas`/`sseDatas`; whenever it has the
shape `pre ++ d1 :: bad :: d2 :: post` with `d1`, `d2` decoding and `bad`
failing, the streaming path emits both valid frames' chunks in order with
the rest of the stream still processed and the terminal marker still
emitted, and the non-streaming parser still includes both frames' texts in
the concatenation, with the malformed line contributing nothing to
either. -/
theorem claim_C6_malformed_line_skipped (decode : List Char → Option RaycastSSEData) :
    (∀ (s : List Char) (ek : EndKind) (pre post : List (List Char))
        (d1 bad d2 : List Char) (j1 j2 : RaycastSSEData),
      decode d1 = some j1 → decode bad = none → decode d2 = some j2 →
      streamDatas (toLines s) [] = pre ++ d1 :: bad :: d2 :: post →
      handleStreamingResponse decode s ek =
        pre.filterMap (decodeEvent decode) ++
          StreamEvent.chunk ⟨j1.text, j1.finishReason⟩ ::
          StreamEvent.chunk ⟨j2.text, j2.finishReason⟩ ::
          (post.filterMap (decodeEvent decode) ++ [StreamEvent.done])) ∧
    (∀ (s : List Char) (pre post : List (List Char))
        (d1 bad d2 : List Char) (j1 j2 : RaycastSSEData),
      decode d1 = some j1 → decode bad = none → decode d2 = some j2 →
      sseDatas s = pre ++ d1 :: bad :: d2 :: post →
      parseSSEResponse decode s =
        textConcat ((pre.filterMap decode).map RaycastSSEData.text) ++
          (j1.text ++ (j2.text ++
            textConcat ((post.filterMap decode).map RaycastSSEData.text)))) := by
  constructor
  · intro s ek pre post d1 bad d2 j1 j2 h1 hb h2 hs
    rw [handleStreamingResponse, streamLoop_eq, hs]
    simp [List.filterMap_append, List.filterMap_cons, decodeEvent, h1, hb, h2]
  · intro s pre post d1 bad d2 j1 j2 h1 hb h2 hs
    rw [parseSSEResponse_eq, hs]
    simp [List.filterMap_append, List.filterMap_cons, List.map_append,
      textConcat_append, textConcat, h1, hb, h2, String.append_assoc]

/-- Witness for C6: the concrete decoder on the concrete stream whose
malformed middle line sits between the two example frames. -/
theorem claim_C6_witness :
    handleStreamingResponse decodeTest malformedStream.data EndKind.eof =
      [StreamEvent.chunk ⟨"Hel", ""⟩, StreamEvent.chunk ⟨"lo", ""⟩,
       StreamEvent.done] ∧
    parseSSEResponse decodeTest malformedStream.data = "Hello" := by
  constructor
  · rw [(claim_C6_malformed_line_skipped decodeTest).1 malformedStream.data
      EndKind.eof [] [] helPayload.data ("notjson".data) loPayload.data
      ⟨"Hel", ""⟩ ⟨"lo", ""⟩ (by decide) (by decide) (by decide) (by decide)]
    decide
  · rw [(claim_C6_malformed_line_skipped decodeTest).2 malformedStream.data
      [] [] helPayload.data ("notjson".data) loPayload.data
      ⟨"Hel", ""⟩ ⟨"lo", ""⟩ (by decide) (by decide) (by decide) (by decide)]
    decide

/-- Claim C7: with no leading system message the system instruction is the
default "markdown"; a leading system message whose typed-parts content
flattens to the empty string also keeps the default instead of overwriting
it. -/
theorem claim_C7_default_system_instruction (msgs : List OpenAIMessage)
    (ps : List ContentPart) (rest : List OpenAIMessage) :
    ((∀ m, msgs.head? = some m → m.role ≠ "system") →
      (convertMessages msgs).systemInstruction = "markdown") ∧
    (flattenParts ps = "" →
      (convertMessages (⟨"system", MsgContent.arr ps⟩ :: rest)).systemInstruction =
        "markdown") := by
  constructor
  · intro h
    match msgs with
    | [] => rfl
    | m :: rest' =>
        have hm : m.role ≠ "system" := h m rfl
        have h0 : convertMessages (m :: rest') =
            convertMessagesAux 0 (m :: rest') "markdown" [] := rfl
        rw [h0]
        simp only [convertMessagesAux]
        rw [if_neg (fun hc => hm hc.1)]
        by_cases hu : m.role = "user" ∨ m.role = "assistant"
        · rw [if_pos hu, convertMessagesAux_succ rest' 0 "markdown" _]
        · rw [if_neg hu, convertMessagesAux_succ rest' 0 "markdown" _]
  · intro h
    have h0 : convertMessages (⟨"system", MsgContent.arr ps⟩ :: rest) =
        if flattenParts ps ≠ "" then convertMessagesAux 1 rest (flattenParts ps) []
        else convertMessagesAux 1 rest "markdown" [] := rfl
    rw [h0, if_neg (by simp [h]), convertMessagesAux_succ rest 0 "markdown" []]

/-- Witness for C7: a user-led sequence and an empty-parts system head both
yield the default system instruction. -/
theorem claim_C7_witness :
    (convertMessages [⟨"user", MsgContent.str "hi"⟩]).systemInstruction =
      "markdown" ∧
    (convertMessages [⟨"system", MsgContent.arr [ContentPart.notObject]⟩,
        ⟨"user", MsgContent.str "hi"⟩]).systemInstruction = "markdown" :=
  ⟨(claim_C7_default_system_instruction [⟨"user", MsgContent.str "hi"⟩] [] []).1
     (by intro m hm; cases hm; decide),
   (claim_C7_default_system_instruction [] [ContentPart.notObject]
      [⟨"user", MsgContent.str "hi"⟩]).2 (by decide)⟩

/-- Claim C8: the chat handler's default application: an absent (empty) model
id becomes the fixed default model id, an absent-or-exactly-zero temperature
becomes 0.5, and stream passes through its decoded value (absent decodes to
false). -/
theorem claim_C8_request_defaults (body : OpenAIChatRequest) :
    (body.model = "" → (applyRequestDefaults body).1 = DefaultModel) ∧
    (body.model ≠ "" → (applyRequestDefaults body).1 = body.model) ∧
    (body.temperature = 0 → (applyRequestDefaults body).2.1 = 0.5) ∧
    (body.temperature ≠ 0 → (applyRequestDefaults body).2.1 = body.temperature) ∧
    (applyRequestDefaults body).2.2 = body.stream := by
  unfold applyRequestDefaults
  refine ⟨fun h => by simp [h], fun h => by simp [h], fun h => by simp [h],
          fun h => by simp [h], rfl⟩

/-- Witness for C8 at a zero-valued and a fully-specified request body. -/
theorem claim_C8_witness :
    (applyRequestDefaults ⟨[], "", 0, false⟩).1 = DefaultModel ∧
    (applyRequestDefaults ⟨[], "", 0, false⟩).2.1 = 0.5 ∧
    (applyRequestDefaults ⟨[], "", 0, false⟩).2.2 = false ∧
    (applyRequestDefaults ⟨[], "gpt-4", 1, true⟩).1 = "gpt-4" ∧
    (applyRequestDefaults ⟨[], "gpt-4", 1, true⟩).2.1 = 1 :=
  ⟨(claim_C8_request_defaults ⟨[], "", 0, false⟩).1 rfl,
   (claim_C8_request_defaults ⟨[], "", 0, false⟩).2.2.1 rfl,
   (claim_C8_request_defaults ⟨[], "", 0, false⟩).2.2.2.2,
   (claim_C8_request_defaults ⟨[], "gpt-4", 1, true⟩).2.1 (by decide),
   (claim_C8_request_defaults ⟨[], "gpt-4", 1, true⟩).2.2.2.1 (by decide)⟩

/-- Claim C9: on every exit path of the read loop — clean end of input, a
non-EOF read error, or a stream with no valid frames — the streaming handler
emits exactly one terminal `data: [DONE]` frame, as its final output. -/
theorem claim_C9_done_always (decode : List Char → Option RaycastSSEData)
    (body : List Char) (ek : EndKind) :
    ∃ chunks, handleStreamingResponse decode body ek =
        chunks ++ [StreamEvent.done] ∧ StreamEvent.done ∉ chunks := by
  refine ⟨streamLoop decode (toLines body) [] ek, rfl, ?_⟩
  rw [streamLoop_eq]
  intro hmem
  obtain ⟨d, _, hd⟩ := List.mem_filterMap.mp hmem
  unfold decodeEvent at hd
  cases decode d <;> simp at hd

/-- Claim C10: a failing fetch leaves the cache's stored state (models map
and expiry) unchanged; the synthesized single-entry default directory handed
out when no prior directory exists is returned but never stored. -/
theorem claim_C10_error_leaves_cache (mc : ModelCache) (now : Nat) (e : String) :
    (GetModels mc now (Except.error e)).2.2 = mc ∧
    (mc.models = [] →
      (GetModels mc now (Except.error e)).1 = defaultModels ∧
      (GetModels mc now (Except.error e)).2.2.models ≠ defaultModels) := by
  have hstate : (GetModels mc now (Except.error e)).2.2 = mc := by
    simp only [GetModels]
    split_ifs <;> rfl
  refine ⟨hstate, fun hnil => ⟨?_, ?_⟩⟩
  · simp only [GetModels]
    rw [if_neg (by simp [hnil])]
    simp [hnil]
  · rw [hstate, hnil]
    decide

/-- Witness for C10 at a concrete empty cache with a failing fetch. -/
theorem claim_C10_witness :
    (GetModels ⟨[], 0⟩ 1 (Except.error "boom")).2.2 = ⟨[], 0⟩ ∧
    (GetModels ⟨[], 0⟩ 1 (Except.error "boom")).1 = defaultModels ∧
    (GetModels ⟨[], 0⟩ 1 (Except.error "boom")).2.2.models ≠ defaultModels :=
  ⟨(claim_C10_error_leaves_cache ⟨[], 0⟩ 1 "boom").1,
   ((claim_C10_error_leaves_cache ⟨[], 0⟩ 1 "boom").2 rfl).1,
   ((claim_C10_error_leaves_cache ⟨[], 0⟩ 1 "boom").2 rfl).2⟩

end Raycast
